import Mathlib

/-!
Verification of the xtraceback formatting engine (src/xtraceback/xtraceback.py).

Strings are modelled as `List Char` (`Str`): Python text operations become
list operations, which keeps every definition executable and decidable.
Python `None`-able values become `Option`; functions that raise become
`Except`.  The `XTracebackFrame` class and the pygments highlighter live
outside `src/`, so a frame is modelled at its interface boundary (line
number, exclusion flag, opaque rendered content) exactly as the spec's
Frame Provider describes it.
-/

/-- Python strings are modelled as lists of characters. -/
abbrev Str := List Char

/-- `n` spaces, as produced by `" " * n`. -/
def spaces (n : Nat) : Str := List.replicate n ' '

/-- The apostrophe character (avoiding a quote literal). -/
def quoteChar : Char := Char.ofNat 39

/-- The backslash character. -/
def backslashChar : Char := Char.ofNat 92

/-- Opening curly brace character. -/
def lbraceChar : Char := Char.ofNat 123

/-- Closing curly brace character. -/
def rbraceChar : Char := Char.ofNat 125

/-- Python slice `s[:k]` where `k` may be negative: a negative bound counts
from the end of the string, clamped at zero. -/
def pySliceTo (s : Str) (k : Int) : Str :=
  if k < 0 then s.take (Int.toNat ((s.length : Int) + k)) else s.take k.toNat

/-- Python `s.lstrip(cs)`: drop leading characters that belong to the set
`cs` (NOT prefix removal - every leading character in the set is dropped). -/
def lstripSet (cs : Str) (s : Str) : Str := s.dropWhile (fun c => decide (c ∈ cs))

/-- Python `s.rstrip(cs)`: drop trailing characters that belong to `cs`. -/
def rstripSet (cs : Str) (s : Str) : Str :=
  (s.reverse.dropWhile (fun c => decide (c ∈ cs))).reverse

/-- Python `str.isspace` on the characters relevant here. -/
def isPySpace (c : Char) : Bool :=
  c = ' ' || c = '\t' || c = '\n' || c = '\x0d' || c = '\x0b' || c = '\x0c'

/-- Python `s.strip()`: strip whitespace from both ends. -/
def pyStrip (s : Str) : Str :=
  (((s.dropWhile isPySpace).reverse).dropWhile isPySpace).reverse

/-- Python `s.lstrip()`: strip leading whitespace. -/
def pyLstrip (s : Str) : Str := s.dropWhile isPySpace

/-- Python `s.splitlines()` restricted to the `\n` separator: like
`splitOn` but a trailing newline does not produce a final empty piece and
the empty string yields no pieces. -/
def splitlinesNl (s : Str) : List Str :=
  if s = [] then []
  else if s.getLast? = some '\n' then (s.splitOn '\n').dropLast
  else s.splitOn '\n'

/-- A Python value as far as the value formatter is concerned: the five
container shapes of `XTraceback.REFORMAT`, text, integers, and a
stand-in for a value whose rendering raises. -/
inductive PyValue where
  | pyStr (s : Str)
  | pyInt (n : Int)
  | pyList (xs : List PyValue)
  | pyTuple (xs : List PyValue)
  | pySet (xs : List PyValue)
  | pyFrozenset (xs : List PyValue)
  | pyDict (xs : List (PyValue × PyValue))
  | unprintable (tname : Str)

/-- `type(value).__name__` for the modelled values. -/
def PyValue.typeName : PyValue → Str
  | .pyStr _ => "str".data
  | .pyInt _ => "int".data
  | .pyList _ => "list".data
  | .pyTuple _ => "tuple".data
  | .pySet _ => "set".data
  | .pyFrozenset _ => "frozenset".data
  | .pyDict _ => "dict".data
  | .unprintable t => t

/-- `repr` escaping of one character inside a single-quoted Python string
(backslash, quote, newline, carriage return, tab). -/
def reprEscapeChar (c : Char) : Str :=
  if c = backslashChar then [backslashChar, backslashChar]
  else if c = quoteChar then [backslashChar, quoteChar]
  else if c = '\n' then [backslashChar, 'n']
  else if c = '\x0d' then [backslashChar, 'r']
  else if c = '\t' then [backslashChar, 't']
  else [c]

/-- `repr` escaping of a Python string body. -/
def reprEscape (s : Str) : Str := (s.map reprEscapeChar).flatten

mutual

/-- Single-line `repr` of a modelled Python value, in Python 2 syntax
(`set([...])`, `frozenset([...])`, singleton tuple trailing comma). -/
def pyRepr : PyValue → Str
  | .pyStr s => quoteChar :: reprEscape s ++ [quoteChar]
  | .pyInt n => (toString n).data
  | .pyList xs => '[' :: pyReprList xs ++ [']']
  | .pyTuple [x] => '(' :: pyRepr x ++ [',', ')']
  | .pyTuple xs => '(' :: pyReprList xs ++ [')']
  | .pySet xs => "set([".data ++ pyReprList xs ++ "])".data
  | .pyFrozenset xs => "frozenset([".data ++ pyReprList xs ++ "])".data
  | .pyDict xs => lbraceChar :: pyReprDict xs ++ [rbraceChar]
  | .unprintable _ => []

/-- Comma-separated renderings of container elements. -/
def pyReprList : List PyValue → Str
  | [] => []
  | [x] => pyRepr x
  | x :: y :: xs => pyRepr x ++ ", ".data ++ pyReprList (y :: xs)

/-- Comma-separated `key: value` renderings of mapping items. -/
def pyReprDict : List (PyValue × PyValue) → Str
  | [] => []
  | [(k, v)] => pyRepr k ++ ": ".data ++ pyRepr v
  | (k, v) :: y :: xs => pyRepr k ++ ": ".data ++ pyRepr v ++ ", ".data ++ pyReprDict (y :: xs)

end

/-- `pprint.pformat(value, indent=0)`, modelled in the regime where the
value's one-line `repr` fits pprint's own 80-column budget so the result
is that single line; the theorems below that concern a "single-line
rendering" carry that premise explicitly as a no-newline hypothesis.
`none` models the rendering itself raising. -/
def pformat : PyValue → Option Str
  | .unprintable _ => none
  | v => some (pyRepr v)

/-- The rendered value used by `_format_variable`: the pretty-printed
form, or the `<unprintable ...>` placeholder when rendering raises. -/
def pvalueOf (v : PyValue) : Str :=
  match pformat v with
  | some pv => pv
  | none => "<unprintable ".data ++ v.typeName ++ " object>".data

/-- `XTraceback.REFORMAT` keyed on the value's type: the delimiter pair
used when an over-width rendering is re-wrapped. -/
def REFORMAT (v : PyValue) : Option (Str × Str) :=
  match v with
  | .pyDict _ => some ([lbraceChar], [rbraceChar])
  | .pyList _ => some ("[".data, "]".data)
  | .pyTuple _ => some ("(".data, ")".data)
  | .pySet _ => some ("set([".data, "])".data)
  | .pyFrozenset _ => some ("frozenset([".data, "])".data)
  | _ => none

/-- The long-string truncation of `_format_variable` (lines 196-199):
a textual value longer than twice the print width is cut at
`print_width - base_size - 2 - 3` (a Python slice, so a negative bound
counts from the end) and an ellipsis is appended. -/
def truncateLongStr (printWidth baseSize : Nat) (s : Str) : Str :=
  if s.length > printWidth * 2 then
    pySliceTo s ((printWidth : Int) - (baseSize : Int) - 2 - 3) ++ "...".data
  else s

/-- The truncation step applied to the value (strings only). -/
def truncateValue (printWidth baseSize : Nat) : PyValue → PyValue
  | .pyStr s => .pyStr (truncateLongStr printWidth baseSize s)
  | v => v

/-- The re-wrap branch of `_format_variable` (lines 205-213): strip the
delimiters as character sets, split into lines, strip each, and re-join
one per line at `indent + 4` spaces with a trailing comma before the
closing delimiter on its own line. -/
def reformatValue (indent : Nat) (st en pvalue : Str) : Str :=
  let lines := (splitlinesNl (rstripSet en (lstripSet st pvalue))).map pyStrip
  let subIndent := '\n' :: spaces (indent + 4)
  st ++ subIndent ++ List.intercalate subIndent lines ++ [','] ++ subIndent ++ en

/-- `XTraceback._format_variable`, parametrised by the resolved print
width (`self.print_width`). -/
def formatVariable (printWidth : Nat) (key : Str) (value : PyValue)
    (indent : Nat := 4) (pfx : Str := []) (separator : Str := " = ".data) : Str :=
  let baseSize := indent + pfx.length + key.length + separator.length
  let value := truncateValue printWidth baseSize value
  let pvalue := pvalueOf value
  let pvalue :=
    if baseSize + pvalue.length > printWidth then
      match REFORMAT value with
      | some (st, en) => reformatValue indent st en pvalue
      | none => pvalue
    else pvalue
  spaces indent ++ pfx ++ key ++ separator ++ pvalue

/-- One raw traceback entry at the interface the assembler consumes:
`lineno` models `frame_info[1]` from `inspect.getframeinfo`, `exclude`
models the `XTracebackFrame.exclude` flag (the Frame Provider's
exclusion decision, outside this file's source), and `content` models
`str(frame)`, the frame's opaque rendered block. -/
structure RawFrame where
  lineno : Nat
  exclude : Bool
  content : Str
deriving DecidableEq

/-- `len(str(lineno))`: the digit width that feeds `number_padding`. -/
def lineNumberWidth (n : Nat) : Nat := (Nat.repr n).length

/-- The `while` guard `limit is None or i < limit`. -/
def limitAllows (limit : Option Nat) (i : Nat) : Bool :=
  match limit with
  | none => true
  | some l => i < l

/-- The frame loop of `XTraceback.__init__` (lines 125-136), written with
the loop state (`tb_frames`, `number_padding`, and a count of frames
passed to `inspect.getframeinfo`) as accumulators: frames are walked
with a counter `i` that advances on every raw frame; a frame is examined
only when `i >= offset`, and the `limit` guard compares against `i`
itself. -/
def tbLoop (offset : Nat) (limit : Option Nat) :
    List RawFrame → Nat → List RawFrame → Nat → Nat → List RawFrame × Nat × Nat
  | [], _, frames, padding, examined => (frames, padding, examined)
  | f :: rest, i, frames, padding, examined =>
    if limitAllows limit i then
      if offset ≤ i then
        if f.exclude then tbLoop offset limit rest (i + 1) frames padding (examined + 1)
        else tbLoop offset limit rest (i + 1) (frames ++ [f])
          (max (lineNumberWidth f.lineno) padding) (examined + 1)
      else tbLoop offset limit rest (i + 1) frames padding examined
    else (frames, padding, examined)

/-- The result of `XTraceback.__init__`'s frame walk on a raw frame
sequence: the included frames, the line-number padding, and how many
frames were examined. -/
def mkFrames (offset : Nat) (limit : Option Nat) (tbs : List RawFrame) :
    List RawFrame × Nat × Nat :=
  tbLoop offset limit tbs 0 [] 0 0

/-- The subsequence of raw frames the loop examines (those reaching the
`inspect.getframeinfo` call), starting from counter value `i`. -/
def window (offset : Nat) (limit : Option Nat) : List RawFrame → Nat → List RawFrame
  | [], _ => []
  | f :: rest, i =>
    if limitAllows limit i then
      if offset ≤ i then f :: window offset limit rest (i + 1)
      else window offset limit rest (i + 1)
    else []

/-- An output stream at the interface the formatter probes: whether it is
a tty, and the column width an `ioctl` winsize query would report. -/
structure OutStream where
  isatty : Bool
  termWidth : Nat
deriving DecidableEq

/-- The populated `XTracebackOptions` instance (typed view used by the
formatter; construction from a raw configuration bag is modelled
separately below). -/
structure XTracebackOptions where
  stream : Option OutStream := none
  color : Option Bool := none
  print_width : Option Nat := none
  offset : Nat := 0
  limit : Option Nat := none
  context : Nat := 5
  globals_module_include : Option Str := none
  show_args : Bool := true
  show_locals : Bool := true
  show_globals : Bool := false
  qualify_methods : Bool := true
  shorten_filenames : Bool := true

/-- One value in a raw configuration bag (Python is dynamically typed;
this covers the value kinds the options can hold). -/
inductive OptVal where
  | vNone
  | vBool (b : Bool)
  | vNat (n : Nat)
  | vStr (s : Str)
  | vStream (st : OutStream)
deriving DecidableEq

/-- Python truthiness of an option value, for the `bool(value)` coercion
applied to flags. -/
def OptVal.truthy : OptVal → Bool
  | .vNone => false
  | .vBool b => b
  | .vNat n => n != 0
  | .vStr s => s != []
  | .vStream _ => true

/-- The recognised value-option keys with their defaults, in source
order (`XTracebackOptions._options`). -/
def defaultOptions : List (Str × OptVal) :=
  [("stream".data, .vNone), ("color".data, .vNone), ("print_width".data, .vNone),
   ("offset".data, .vNat 0), ("limit".data, .vNone), ("context".data, .vNat 5),
   ("globals_module_include".data, .vNone)]

/-- The recognised flag keys with their defaults (`XTracebackOptions._flags`). -/
def defaultFlags : List (Str × Bool) :=
  [("show_args".data, true), ("show_locals".data, true), ("show_globals".data, false),
   ("qualify_methods".data, true), ("shorten_filenames".data, true)]

/-- `bag.pop(key, None)`: the looked-up value (if any) and the bag with
that key removed. -/
def bagPop (key : Str) (bag : List (Str × OptVal)) : Option OptVal × List (Str × OptVal) :=
  match bag.find? (fun p => p.1 = key) with
  | some p => (some p.2, bag.filter (fun q => q.1 ≠ key))
  | none => (none, bag)

/-- The per-key step of `XTracebackOptions.__init__` for value options:
pop the key; `None` (absent or explicit) falls back to the default. -/
def popOption (st : List (Str × OptVal) × List (Str × OptVal)) (kd : Str × OptVal) :
    List (Str × OptVal) × List (Str × OptVal) :=
  let v := match (bagPop kd.1 st.2).1 with
    | some .vNone => kd.2
    | some w => w
    | none => kd.2
  (st.1 ++ [(kd.1, v)], (bagPop kd.1 st.2).2)

/-- The per-key step for flags: pop the key; `None` falls back to the
default, anything else is coerced with `bool(value)`. -/
def popFlag (st : List (Str × OptVal) × List (Str × OptVal)) (kd : Str × Bool) :
    List (Str × OptVal) × List (Str × OptVal) :=
  let v := match (bagPop kd.1 st.2).1 with
    | some .vNone => OptVal.vBool kd.2
    | some w => OptVal.vBool w.truthy
    | none => OptVal.vBool kd.2
  (st.1 ++ [(kd.1, v)], (bagPop kd.1 st.2).2)

/-- `XTracebackOptions.__init__` over a raw configuration bag: populate
every recognised key (defaults for absent or `None` values, boolean
coercion for flags), then fail with the whole remaining bag - every
unrecognised entry - if it is nonempty (`TypeError("Unsupported
options: %r" % options)`). -/
def optionsOfBag (bag : List (Str × OptVal)) :
    Except (List (Str × OptVal)) (List (Str × OptVal)) :=
  let s1 := defaultOptions.foldl popOption ([], bag)
  let s2 := defaultFlags.foldl popFlag s1
  if s2.2 = [] then .ok s2.1 else .error s2.2

/-- The recognised configuration keys (value options and flags). -/
def recognizedKeys : List Str :=
  defaultOptions.map Prod.fst ++ defaultFlags.map Prod.fst

/-- Python `s.replace(pat, rep)`, fuelled so that the recursion is
structural (the fuel is the string length, which always suffices since
every step consumes at least one character; an empty pattern is a
no-op here, which is all the call sites need). -/
def replaceAllFuel (pat rep : Str) : Nat → Str → Str
  | _, [] => []
  | 0, s => s
  | fuel + 1, c :: rest =>
    if pat ≠ [] ∧ pat.isPrefixOf (c :: rest) then
      rep ++ replaceAllFuel pat rep fuel ((c :: rest).drop pat.length)
    else c :: replaceAllFuel pat rep fuel rest

/-- Python `s.replace(pat, rep)`: replace every occurrence of `pat`
(left to right, non-overlapping). -/
def replaceAll (pat rep s : Str) : Str := replaceAllFuel pat rep s.length s

/-- The filesystem state `_format_filename` consults: `os.path.realpath`,
`os.path.relpath` (present on this Python), and the process-wide
standard-library root `_stdlib_path`. -/
structure FS where
  realpath : Str → Str
  relpath : Str → Str
  stdlibPath : Str

/-- `XTraceback._format_filename` (lines 179-191): resolve the real path;
a path under the standard-library root has that root replaced by the
`<stdlib>` tag; otherwise the path relative to the working directory is
used when strictly shorter. -/
def formatFilename (fs : FS) (shorten : Bool) (filename : Str) : Str :=
  if shorten then
    let f := fs.realpath filename
    if fs.stdlibPath.isPrefixOf f then replaceAll fs.stdlibPath "<stdlib>".data f
    else
      let rel := fs.relpath f
      if rel.length < f.length then rel else f
  else filename

/-- The exception instance at the interface `_format_exception_only`
consumes: the results of `str(value)` and of the backslash-escaping
fallback (`none` models the conversion raising), the type name for the
placeholder, whether the value is a `SyntaxError`, and the syntax-error
record `(msg, (filename, lineno, offset, badline))` when unpacking
`value.args` succeeds. -/
structure SyntaxErrorArgs where
  msg : Str
  filename : Str
  lineno : Int
  offset : Option Int
  badline : Option Str
deriving DecidableEq

structure PyExcValue where
  strRes : Option Str
  unicodeRes : Option Str
  typeName : Str
  isSyntaxError : Bool
  sargs : Option SyntaxErrorArgs
deriving DecidableEq

/-- The exception type: either a class (with `__name__`) or an arbitrary
object rendered with `str`. -/
structure ExcType where
  isType : Bool
  name : Str
  strRepr : Str
deriving DecidableEq

/-- The three-tier message conversion of `_format_exception_only` (lines
261-269); `str(None)` is the string `None`. -/
def valueStrOf : Option PyExcValue → Str
  | none => "None".data
  | some v =>
    match v.strRes with
    | some s => s
    | none =>
      match v.unicodeRes with
      | some s => s
      | none => "<unprintable ".data ++ v.typeName ++ " object>".data

/-- The caret line of the syntax-error special case (lines 284-291):
whitespace of the offending line up to the offset is kept, everything
else becomes a space, with three leading spaces before it and a caret
appended. -/
def caretLine (badline : Str) (offset : Int) : Str :=
  let caretspace := pyLstrip (pySliceTo (rstripSet "\n".data badline) offset)
  let caretspace := caretspace.map (fun c => if isPySpace c then c else ' ')
  "   ".data ++ caretspace ++ "^\n".data

/-- `XTraceback._format_exception_only` (lines 257-300): the three-tier
message conversion, the syntax-error `File`/source/caret augmentation
(silently skipped when the record does not unpack), and the final
`Type[: message]` line. -/
def formatExceptionOnlyLines (fs : FS) (opts : XTracebackOptions)
    (etype : ExcType) (value : Option PyExcValue) : List Str :=
  let value_str := valueStrOf value
  let state :=
    match value with
    | some v =>
      if v.isSyntaxError then
        match v.sargs with
        | none => (([] : List Str), value_str)
        | some sa =>
          let f1 := if sa.filename ≠ [] then
              (let g := formatFilename fs opts.shorten_filenames sa.filename
               if g ≠ [] then g else "<string>".data)
            else "<string>".data
          let f2 := if f1 ≠ [] then f1 else "<string>".data
          let fileLine := "  File \"".data ++ f2 ++ "\", line ".data
            ++ (toString sa.lineno).data ++ ['\n']
          match sa.badline with
          | none => ([fileLine], value_str)
          | some bl =>
            let srcLine := "    ".data ++ pyStrip bl ++ ['\n']
            match sa.offset with
            | none => ([fileLine, srcLine], sa.msg)
            | some off => ([fileLine, srcLine, caretLine bl off], sa.msg)
      else ([], value_str)
    | none => ([], value_str)
  let exc_line := if etype.isType ∧ etype.name ≠ [] then etype.name else etype.strRepr
  let exc_line := if value.isSome ∧ state.2 ≠ [] then exc_line ++ ": ".data ++ state.2
    else exc_line
  state.1 ++ [exc_line ++ ['\n']]

/-- `XTraceback.DEFAULT_WIDTH`. -/
def DEFAULT_WIDTH : Nat := 80

/-- The literal header prepended when any frame lines were produced. -/
def tracebackHeader : Str := "Traceback (most recent call last):\n".data

/-- One `XTraceback` instance after construction: validated options, the
exception pair, the already-filtered frames with their padding, the
filesystem state, and the highlighting environment (whether pygments
imported, whether `TerminalFormatter()` construction succeeds, and the
text transformation `pygments.highlight` applies). -/
structure XTraceback where
  options : XTracebackOptions
  etype : ExcType
  value : Option PyExcValue
  tb_frames : List RawFrame
  number_padding : Nat
  fs : FS
  fcntlAvailable : Bool
  pygmentsAvailable : Bool
  formatterOk : Bool
  highlighter : Str → Str

/-- `XTraceback.tty_stream`: a missing stream has no `isatty`. -/
def XTraceback.ttyStream (x : XTraceback) : Bool :=
  match x.options.stream with
  | none => false
  | some s => s.isatty

/-- `XTraceback.color`: an unset color option falls back to tty-ness of
the stream. -/
def XTraceback.resolvedColor (x : XTraceback) : Bool :=
  match x.options.color with
  | none => x.ttyStream
  | some b => b

/-- `XTraceback.print_width` (lines 157-174), as written: the `ioctl`
width when the option is unset, `fcntl` imported and the stream a tty;
on EVERY other path the `else` branch overwrites with `DEFAULT_WIDTH`,
including when `options.print_width` was explicitly configured. -/
def XTraceback.printWidth (x : XTraceback) : Nat :=
  if x.options.print_width = none ∧ x.fcntlAvailable ∧ x.ttyStream then
    match x.options.stream with
    | some s => s.termWidth
    | none => DEFAULT_WIDTH
  else DEFAULT_WIDTH

/-- `XTraceback._highlight`: the identity when pygments is missing or the
terminal formatter cannot be constructed, otherwise the highlighter's
transformation. -/
def XTraceback.highlight (x : XTraceback) (s : Str) : Str :=
  if x.pygmentsAvailable then
    if x.formatterOk then x.highlighter s else s
  else s

/-- `XTraceback._str_lines`: join and optionally highlight. -/
def XTraceback.strLines (x : XTraceback) (lines : List Str) : Str :=
  let exc_str := lines.flatten
  if x.resolvedColor then x.highlight exc_str else exc_str

/-- `XTraceback._format_lines`: highlight each line when color is on. -/
def XTraceback.formatLines (x : XTraceback) (lines : List Str) : List Str :=
  if x.resolvedColor then lines.map x.highlight else lines

/-- `XTraceback._print_lines`: the only raising path of the facade -
`RuntimeError` when no stream is configured, before anything is written;
the payload of `ok` is the single string written to the stream. -/
def XTraceback.printLines (x : XTraceback) (lines : List Str) : Except Str Str :=
  match x.options.stream with
  | none => .error "Cannot print - None stream".data
  | some _ => .ok (x.strLines lines)

/-- `XTraceback._format_tb`: one line per included frame. -/
def XTraceback.formatTbLines (x : XTraceback) : List Str :=
  x.tb_frames.map (fun f => f.content ++ ['\n'])

/-- `XTraceback._format_exception` (lines 302-307): the header is
prepended exactly when frame lines exist, then the exception-only lines
follow. -/
def XTraceback.formatExceptionLines (x : XTraceback) : List Str :=
  (if x.formatTbLines ≠ [] then tracebackHeader :: x.formatTbLines else x.formatTbLines)
    ++ formatExceptionOnlyLines x.fs x.options x.etype x.value

/-- Facade `format_tb`: never raises (wrapped in `Except` to make the
facade's failure behaviour uniform with the print operations). -/
def XTraceback.format_tb (x : XTraceback) : Except Str (List Str) :=
  .ok (x.formatLines x.formatTbLines)

/-- Facade `format_exception_only`: never raises. -/
def XTraceback.format_exception_only (x : XTraceback) : Except Str (List Str) :=
  .ok (x.formatLines (formatExceptionOnlyLines x.fs x.options x.etype x.value))

/-- Facade `format_exception`: never raises. -/
def XTraceback.format_exception (x : XTraceback) : Except Str (List Str) :=
  .ok (x.formatLines x.formatExceptionLines)

/-- Facade `print_tb`. -/
def XTraceback.print_tb (x : XTraceback) : Except Str Str :=
  x.printLines x.formatTbLines

/-- Facade `print_exception`. -/
def XTraceback.print_exception (x : XTraceback) : Except Str Str :=
  x.printLines x.formatExceptionLines

/-- `XTraceback.__str__`. -/
def XTraceback.toStr (x : XTraceback) : Str :=
  x.strLines x.formatExceptionLines

/-- Cap a count by an optional limit (`min` when the limit is set). -/
def capN : Option Nat → Nat → Nat
  | none, v => v
  | some n, v => min v n

/-- A concrete filesystem state for witnesses: absolute paths resolve to
themselves, relative paths resolve under `/home/user`, and the relative
form strips that working directory. -/
def fsToy : FS where
  realpath := fun s => if s.head? = some '/' then s else "/home/user".data ++ '/' :: s
  relpath := fun p =>
    if ("/home/user/".data : Str).isPrefixOf p then p.drop 11 else p
  stdlibPath := "/usr/lib/python2.7".data

/-- The exception type used in concrete witnesses. -/
def excValueError : ExcType where
  isType := true
  name := "ValueError".data
  strRepr := []

/-- A plain exception value used in concrete witnesses. -/
def excValSimple : PyExcValue where
  strRes := some "boom".data
  unicodeRes := some "boom".data
  typeName := "ValueError".data
  isSyntaxError := false
  sargs := none

/-- A formatter instance with no stream and color unset, used in
concrete witnesses. -/
def xNoStream : XTraceback where
  options := {}
  etype := excValueError
  value := some excValSimple
  tb_frames := [⟨3, false, "  frame line".data⟩]
  number_padding := 1
  fs := fsToy
  fcntlAvailable := true
  pygmentsAvailable := false
  formatterOk := false
  highlighter := fun s => '!' :: s

/-- Color mode forced off (`color=False`). -/
def colorOff (x : XTraceback) : XTraceback :=
  {x with options := {x.options with color := some false}}

/-- Color mode forced on while pygments is unavailable. -/
def colorOnNoPygments (x : XTraceback) : XTraceback :=
  {x with options := {x.options with color := some true}, pygmentsAvailable := false}

theorem tbLoop_spec (offset : Nat) (limit : Option Nat) :
    ∀ (xs : List RawFrame) (i : Nat) (fr : List RawFrame) (pad ex : Nat),
      tbLoop offset limit xs i fr pad ex =
        (fr ++ (window offset limit xs i).filter (fun f => !f.exclude),
         List.foldl (fun p f => max (lineNumberWidth f.lineno) p) pad
           ((window offset limit xs i).filter (fun f => !f.exclude)),
         ex + (window offset limit xs i).length) := by
  intro xs
  induction xs with
  | nil => intro i fr pad ex; simp [tbLoop, window]
  | cons f rest ih =>
    intro i fr pad ex
    cases hl : limitAllows limit i with
    | false => simp [tbLoop, window, hl]
    | true =>
      by_cases ho : offset ≤ i
      · cases hx : f.exclude with
        | true =>
          simp only [tbLoop, window, ih]
          simp [hl, ho, hx, Prod.ext_iff, List.append_assoc]
          all_goals omega
        | false =>
          simp only [tbLoop, window, ih]
          simp [hl, ho, hx, Prod.ext_iff, List.append_assoc]
          all_goals omega
      · simp only [tbLoop, window, ih]
        simp [hl, ho, Prod.ext_iff, List.append_assoc]
        all_goals omega

theorem window_length (offset : Nat) (limit : Option Nat) :
    ∀ (xs : List RawFrame) (i : Nat),
      (window offset limit xs i).length = capN limit (i + xs.length) - i - (offset - i) := by
  intro xs
  induction xs with
  | nil =>
    intro i
    cases limit with
    | none =>
      simp only [window, List.length_nil, capN]
      omega
    | some n =>
      simp only [window, List.length_nil, capN]
      omega
  | cons f rest ih =>
    intro i
    cases limit with
    | none =>
      have hla : limitAllows none i = true := rfl
      by_cases ho : offset ≤ i
      · simp only [window, hla, ite_true, if_pos ho, List.length_cons, ih, capN]
        omega
      · simp only [window, hla, ite_true, if_neg ho, List.length_cons, ih, capN]
        omega
    | some n =>
      by_cases hl : i < n
      · have hla : limitAllows (some n) i = true := by
          simp [limitAllows, hl]
        by_cases ho : offset ≤ i
        · simp only [window, hla, ite_true, if_pos ho, List.length_cons, ih, capN]
          omega
        · simp only [window, hla, ite_true, if_neg ho, List.length_cons, ih, capN]
          omega
      · have hla : limitAllows (some n) i = false := by
          simp [limitAllows, hl]
        simp only [window, hla, Bool.false_eq_true, ite_false, List.length_nil,
          List.length_cons, capN]
        omega

theorem foldl_max_eq_foldr (w : RawFrame → Nat) :
    ∀ (L : List RawFrame) (a : Nat),
      List.foldl (fun p f => max (w f) p) a L
        = max a (List.foldr (fun f p => max (w f) p) 0 L) := by
  intro L
  induction L with
  | nil => intro a; simp
  | cons f L ih =>
    intro a
    calc List.foldl (fun p f => max (w f) p) a (f :: L)
        = List.foldl (fun p f => max (w f) p) (max (w f) a) L := rfl
      _ = max (max (w f) a) (List.foldr (fun f p => max (w f) p) 0 L) := ih _
      _ = max a (max (w f) (List.foldr (fun f p => max (w f) p) 0 L)) := by
          rw [Nat.max_comm (w f) a, Nat.max_assoc]
      _ = max a (List.foldr (fun f p => max (w f) p) 0 (f :: L)) := rfl

theorem mkFrames_eq (offset : Nat) (limit : Option Nat) (tbs : List RawFrame) :
    mkFrames offset limit tbs =
      ((window offset limit tbs 0).filter (fun f => !f.exclude),
       List.foldr (fun f p => max (lineNumberWidth f.lineno) p) 0
         ((window offset limit tbs 0).filter (fun f => !f.exclude)),
       (window offset limit tbs 0).length) := by
  rw [mkFrames, tbLoop_spec]
  simp [foldl_max_eq_foldr]

/-- C1: the number of frames the constructor examines.  The claim's
`min(l, L-o)` is wrong: the loop counter that the limit guard compares
against also counts the skipped frames, so with a limit `l` the loop
examines `min(L, l) - o` frames (and `L - o` without a limit). -/
theorem c1_frames_examined (offset : Nat) (l : Nat) (tbs : List RawFrame) :
    (mkFrames offset (some l) tbs).2.2 = min tbs.length l - offset
    ∧ (mkFrames offset none tbs).2.2 = tbs.length - offset := by
  constructor <;> rw [mkFrames_eq] <;> simp [window_length, capN]

/-- C1 counterexample: two raw frames, `offset=1`, `limit=1`.  The claim
predicts `min(l, L-o) = min(1, 1) = 1` examined frame; the code examines
none, because the skipped first frame already exhausted the limit. -/
theorem c1_counterexample :
    ¬ ((mkFrames 1 (some 1)
          [⟨10, false, "f0".data⟩, ⟨20, false, "f1".data⟩]).2.2
        = min 1 ((2 : Nat) - 1)) := by decide

/-- C5: frames the Frame Provider marks as excluded are dropped from the
constructor's `tb_frames` (so they contribute nothing to the rendered
output, which is built only from `tb_frames`) and `number_padding` is
the maximum digit width over the included frames only (0 when none). -/
theorem c5_excluded_frames_invisible (offset : Nat) (limit : Option Nat)
    (tbs : List RawFrame) :
    (mkFrames offset limit tbs).1
        = (window offset limit tbs 0).filter (fun f => !f.exclude)
    ∧ (mkFrames offset limit tbs).2.1
        = List.foldr (fun f p => max (lineNumberWidth f.lineno) p) 0
            ((mkFrames offset limit tbs).1)
    ∧ ∀ f ∈ (mkFrames offset limit tbs).1, f.exclude = false := by
  rw [mkFrames_eq]
  refine ⟨rfl, rfl, ?_⟩
  intro f hf
  have hp := List.of_mem_filter hf
  simpa using hp

theorem bagPop_snd (k : Str) (bag : List (Str × OptVal)) :
    (bagPop k bag).2 = bag.filter (fun q => decide (q.1 ≠ k)) := by
  unfold bagPop
  cases h : bag.find? (fun p => decide (p.1 = k)) with
  | some p => simp
  | none =>
    simp only
    rw [eq_comm, List.filter_eq_self]
    intro a ha
    have := List.find?_eq_none.mp h a ha
    simpa using this

theorem popOption_snd (st : List (Str × OptVal) × List (Str × OptVal)) (kd : Str × OptVal) :
    (popOption st kd).2 = st.2.filter (fun q => decide (q.1 ≠ kd.1)) := by
  simp [popOption, bagPop_snd]

theorem popFlag_snd (st : List (Str × OptVal) × List (Str × OptVal)) (kd : Str × Bool) :
    (popFlag st kd).2 = st.2.filter (fun q => decide (q.1 ≠ kd.1)) := by
  simp [popFlag, bagPop_snd]

theorem foldl_popOption_snd (kds : List (Str × OptVal)) :
    ∀ st : List (Str × OptVal) × List (Str × OptVal),
      (kds.foldl popOption st).2
        = st.2.filter (fun q => decide (∀ kd ∈ kds, q.1 ≠ kd.1)) := by
  induction kds with
  | nil => intro st; simp
  | cons kd kds ih =>
    intro st
    rw [List.foldl_cons, ih, popOption_snd, List.filter_filter]
    refine List.filter_congr ?_
    intro a _
    simp only [List.forall_mem_cons, Bool.decide_and, Bool.and_comm]
    congr 1
    exact decide_eq_decide.mpr Iff.rfl

theorem foldl_popFlag_snd (kds : List (Str × Bool)) :
    ∀ st : List (Str × OptVal) × List (Str × OptVal),
      (kds.foldl popFlag st).2
        = st.2.filter (fun q => decide (∀ kd ∈ kds, q.1 ≠ kd.1)) := by
  induction kds with
  | nil => intro st; simp
  | cons kd kds ih =>
    intro st
    rw [List.foldl_cons, ih, popFlag_snd, List.filter_filter]
    refine List.filter_congr ?_
    intro a _
    simp only [List.forall_mem_cons, Bool.decide_and, Bool.and_comm]
    congr 1
    exact decide_eq_decide.mpr Iff.rfl

theorem notMem_recognized_iff (s : Str) :
    ((∀ kd ∈ defaultOptions, s ≠ kd.1) ∧ (∀ kd ∈ defaultFlags, s ≠ kd.1))
      ↔ s ∉ recognizedKeys := by
  constructor
  · rintro ⟨h1, h2⟩ hs
    rw [recognizedKeys, List.mem_append] at hs
    rcases hs with hs | hs
    · rcases List.mem_map.mp hs with ⟨x, hx, he⟩
      exact h1 x hx he.symm
    · rcases List.mem_map.mp hs with ⟨x, hx, he⟩
      exact h2 x hx he.symm
  · intro hs
    constructor
    · intro kd hkd he
      refine hs ?_
      rw [recognizedKeys, List.mem_append]
      exact Or.inl (List.mem_map.mpr ⟨kd, hkd, he.symm⟩)
    · intro kd hkd he
      refine hs ?_
      rw [recognizedKeys, List.mem_append]
      exact Or.inr (List.mem_map.mpr ⟨kd, hkd, he.symm⟩)

theorem optionsOfBag_rest (bag : List (Str × OptVal)) :
    (defaultFlags.foldl popFlag (defaultOptions.foldl popOption ([], bag))).2
      = bag.filter (fun q => decide (q.1 ∉ recognizedKeys)) := by
  rw [foldl_popFlag_snd, foldl_popOption_snd, List.filter_filter]
  refine List.filter_congr ?_
  intro a _
  rw [← Bool.decide_and, decide_eq_decide]
  exact and_comm.trans (notMem_recognized_iff a.1)

/-- C3: constructing the options from a configuration bag succeeds when
every key is recognised, and otherwise fails with exactly the
unrecognised entries - all of them, since the error payload is the whole
bag left over after the recognised keys were popped. -/
theorem c3_unsupported_options (bag : List (Str × OptVal)) :
    ((∀ k ∈ bag.map Prod.fst, k ∈ recognizedKeys) →
        ∃ vals, optionsOfBag bag = .ok vals)
    ∧ ((∃ k ∈ bag.map Prod.fst, k ∉ recognizedKeys) →
        optionsOfBag bag = .error
          (bag.filter (fun q => decide (q.1 ∉ recognizedKeys)))) := by
  have hbody : optionsOfBag bag =
      if (defaultFlags.foldl popFlag (defaultOptions.foldl popOption ([], bag))).2 = []
      then .ok (defaultFlags.foldl popFlag (defaultOptions.foldl popOption ([], bag))).1
      else .error (defaultFlags.foldl popFlag (defaultOptions.foldl popOption ([], bag))).2 :=
    rfl
  rw [hbody, optionsOfBag_rest]
  constructor
  · intro hall
    have hnil : bag.filter (fun q => decide (q.1 ∉ recognizedKeys)) = [] := by
      refine List.filter_eq_nil.mpr ?_
      intro q hq
      have : q.1 ∈ recognizedKeys := hall q.1 (List.mem_map.mpr ⟨q, hq, rfl⟩)
      simp [this]
    rw [if_pos hnil]
    exact ⟨_, rfl⟩
  · rintro ⟨k, hk, hkn⟩
    rcases List.mem_map.mp hk with ⟨q, hq, rfl⟩
    have hmem : q ∈ bag.filter (fun q => decide (q.1 ∉ recognizedKeys)) := by
      refine List.mem_filter.mpr ⟨hq, ?_⟩
      simpa using hkn
    rw [if_neg (List.ne_nil_of_mem hmem)]

/-- C3 witness: a bag of recognised keys constructs; a bag with the
unrecognised keys `bogus` and `extra` fails listing both. -/
theorem c3_unsupported_options_witness :
    (∃ vals, optionsOfBag [("offset".data, .vNat 2), ("color".data, .vBool true)]
        = .ok vals)
    ∧ optionsOfBag
        [("offset".data, .vNat 2), ("bogus".data, .vNat 1), ("extra".data, .vNone)]
        = .error [("bogus".data, .vNat 1), ("extra".data, .vNone)] := by
  constructor
  · exact (c3_unsupported_options _).1 (by decide)
  · rw [(c3_unsupported_options _).2 ⟨"bogus".data, by decide, by decide⟩]
    rfl

/-- C2 (amended): for a textual value longer than twice the print width,
the truncated value is at most `print_width` characters (indeed
`print_width - base_size - 2`) and ends in the ellipsis marker -
PROVIDED `base_size + 5 ≤ print_width`, so that the slice bound
`print_width - base_size - 5` is not negative.  Without that proviso the
negative Python slice keeps almost the whole string (see the
counterexample). -/
theorem c2_truncation (printWidth baseSize : Nat) (s : Str)
    (hlong : printWidth * 2 < s.length) (hbs : baseSize + 5 ≤ printWidth) :
    (truncateLongStr printWidth baseSize s).length ≤ printWidth
    ∧ "...".data <:+ truncateLongStr printWidth baseSize s := by
  unfold truncateLongStr
  rw [if_pos hlong]
  constructor
  · have hk : ((printWidth : Int) - (baseSize : Int) - 2 - 3)
        = ((printWidth - baseSize - 5 : Nat) : Int) := by omega
    rw [hk]
    unfold pySliceTo
    rw [if_neg (by omega)]
    simp only [Int.toNat_natCast, List.length_append, List.length_take,
      List.length_cons, List.length_nil]
    omega
  · exact List.suffix_append _ _

/-- C2 witness: print width 20, base size 8, a 41-character value:
the result is within the width and ends in the ellipsis. -/
theorem c2_truncation_witness :
    (truncateLongStr 20 8 (List.replicate 41 'b')).length ≤ 20
    ∧ "...".data <:+ truncateLongStr 20 8 (List.replicate 41 'b') :=
  c2_truncation 20 8 (List.replicate 41 'b') (by decide) (by decide)

set_option maxRecDepth 4000 in
/-- C2 counterexample: with the default width 80 and a base size of 80
(indent 4, an empty label, a 73-character name, the 3-character
separator), a 161-character textual value is "truncated" to 159
characters - the negative slice bound keeps all but the last 5 - so the
rendered value is NOT at most `print_width` characters. -/
theorem c2_counterexample :
    ¬ ((truncateLongStr 80 (4 + 0 + 73 + 3) (List.replicate 161 'a')).length ≤ 80) := by
  decide

/-- C7: `_format_filename` is idempotent.  The hypotheses are the
standard-filesystem facts at the points the proof visits: re-resolving
the `<stdlib>`-tagged result gives an absolute path not under the
standard library whose relative form is the tagged result again and
strictly shorter (`hstd`); resolving a relative result returns the
original real path (`hrt`); and `realpath` is idempotent (`hidem`). -/
theorem c7_format_filename_idempotent (fs : FS) (shorten : Bool) (x : Str)
    (hstd : fs.stdlibPath.isPrefixOf (fs.realpath x) = true →
      (fs.stdlibPath.isPrefixOf
          (fs.realpath (replaceAll fs.stdlibPath "<stdlib>".data (fs.realpath x))) = false
        ∧ fs.relpath (fs.realpath (replaceAll fs.stdlibPath "<stdlib>".data (fs.realpath x)))
            = replaceAll fs.stdlibPath "<stdlib>".data (fs.realpath x)
        ∧ (replaceAll fs.stdlibPath "<stdlib>".data (fs.realpath x)).length
            < (fs.realpath (replaceAll fs.stdlibPath "<stdlib>".data (fs.realpath x))).length))
    (hrt : fs.realpath (fs.relpath (fs.realpath x)) = fs.realpath x)
    (hidem : fs.realpath (fs.realpath x) = fs.realpath x) :
    formatFilename fs shorten (formatFilename fs shorten x)
      = formatFilename fs shorten x := by
  cases shorten with
  | false => simp [formatFilename]
  | true =>
    cases hpre : fs.stdlibPath.isPrefixOf (fs.realpath x) with
    | true =>
      obtain ⟨h1, h2, h3⟩ := hstd hpre
      conv_rhs => rw [formatFilename]
      conv_lhs => rw [formatFilename, formatFilename]
      simp only [ite_true, hpre, h1, h2, h3, if_pos, if_neg, Bool.false_eq_true,
        if_true, if_false, ite_false]
    | false =>
      by_cases hlen : (fs.relpath (fs.realpath x)).length < (fs.realpath x).length
      · conv_rhs => rw [formatFilename]
        conv_lhs => rw [formatFilename, formatFilename]
        simp only [ite_true, hpre, Bool.false_eq_true, ite_false, if_pos hlen, hrt]
      · conv_rhs => rw [formatFilename]
        conv_lhs => rw [formatFilename, formatFilename]
        simp only [ite_true, hpre, Bool.false_eq_true, ite_false, if_neg hlen, hidem]

/-- C7 witness: normalising `/usr/lib/python2.7/os.py` twice under the
concrete filesystem state gives the same `<stdlib>/os.py` both times. -/
theorem c7_witness :
    formatFilename fsToy true (formatFilename fsToy true "/usr/lib/python2.7/os.py".data)
      = formatFilename fsToy true "/usr/lib/python2.7/os.py".data :=
  c7_format_filename_idempotent fsToy true "/usr/lib/python2.7/os.py".data
    (fun _ => by decide) (by decide) (by decide)

/-- C8: the print operations fail exactly when no stream was configured
(and then return the error before anything is written - the `ok` payload
is the only write), while the format operations succeed for every
instance, stream or not. -/
theorem c8_print_requires_stream (x : XTraceback) :
    (x.print_tb.isOk = true ↔ x.options.stream.isSome = true)
    ∧ (x.print_exception.isOk = true ↔ x.options.stream.isSome = true)
    ∧ x.format_tb.isOk = true
    ∧ x.format_exception_only.isOk = true
    ∧ x.format_exception.isOk = true
    ∧ (x.options.stream = none →
        x.print_tb = .error "Cannot print - None stream".data
        ∧ x.print_exception = .error "Cannot print - None stream".data) := by
  cases hs : x.options.stream with
  | none =>
    simp [XTraceback.print_tb, XTraceback.print_exception, XTraceback.printLines, hs,
      XTraceback.format_tb, XTraceback.format_exception_only, XTraceback.format_exception,
      Except.isOk, Except.toBool]
  | some st =>
    simp [XTraceback.print_tb, XTraceback.print_exception, XTraceback.printLines, hs,
      XTraceback.format_tb, XTraceback.format_exception_only, XTraceback.format_exception,
      Except.isOk, Except.toBool]

/-- C8 witness: with no stream configured both print operations return
the no-stream error (and nothing is written). -/
theorem c8_witness :
    xNoStream.print_tb = .error "Cannot print - None stream".data
    ∧ xNoStream.print_exception = .error "Cannot print - None stream".data :=
  (c8_print_requires_stream xNoStream).2.2.2.2.2 rfl

theorem highlight_of_unavailable (x : XTraceback) (h : x.pygmentsAvailable = false) :
    x.highlight = id := by
  funext s
  simp [XTraceback.highlight, h]

theorem formatExceptionOnlyLines_options_congr (fs : FS) (o1 o2 : XTracebackOptions)
    (h : o1.shorten_filenames = o2.shorten_filenames) (et : ExcType)
    (v : Option PyExcValue) :
    formatExceptionOnlyLines fs o1 et v = formatExceptionOnlyLines fs o2 et v := by
  unfold formatExceptionOnlyLines
  rw [h]

theorem formatExceptionLines_congr (x y : XTraceback)
    (hf : x.tb_frames = y.tb_frames) (hfs : x.fs = y.fs)
    (hsh : x.options.shorten_filenames = y.options.shorten_filenames)
    (het : x.etype = y.etype) (hv : x.value = y.value) :
    x.formatExceptionLines = y.formatExceptionLines := by
  unfold XTraceback.formatExceptionLines XTraceback.formatTbLines
  rw [hf, hfs, het, hv, formatExceptionOnlyLines_options_congr _ _ _ hsh]

/-- C9: disabling color gives byte-identical output to enabling color
with the highlighter unavailable (pygments missing), across every
format, print and string operation. -/
theorem c9_color_off_eq_highlighter_unavailable (x : XTraceback) :
    (colorOff x).format_tb = (colorOnNoPygments x).format_tb
    ∧ (colorOff x).format_exception_only = (colorOnNoPygments x).format_exception_only
    ∧ (colorOff x).format_exception = (colorOnNoPygments x).format_exception
    ∧ (colorOff x).toStr = (colorOnNoPygments x).toStr
    ∧ (colorOff x).print_tb = (colorOnNoPygments x).print_tb
    ∧ (colorOff x).print_exception = (colorOnNoPygments x).print_exception := by
  have hun : (colorOnNoPygments x).highlight = id := highlight_of_unavailable _ rfl
  have hoffc : (colorOff x).resolvedColor = false := rfl
  have hexc : (colorOff x).formatExceptionLines = (colorOnNoPygments x).formatExceptionLines :=
    formatExceptionLines_congr _ _ rfl rfl rfl rfl rfl
  have htb : (colorOff x).formatTbLines = (colorOnNoPygments x).formatTbLines := rfl
  have heo : formatExceptionOnlyLines (colorOff x).fs (colorOff x).options
        (colorOff x).etype (colorOff x).value
      = formatExceptionOnlyLines (colorOnNoPygments x).fs (colorOnNoPygments x).options
        (colorOnNoPygments x).etype (colorOnNoPygments x).value :=
    formatExceptionOnlyLines_options_congr _ _ _ rfl _ _
  have hfl1 : ∀ L : List Str, (colorOff x).formatLines L = L := fun L => by
    simp [XTraceback.formatLines, hoffc]
  have hfl2 : ∀ L : List Str, (colorOnNoPygments x).formatLines L = L := fun L => by
    cases hc : (colorOnNoPygments x).resolvedColor <;>
      simp [XTraceback.formatLines, hc, hun]
  have hsl1 : ∀ L : List Str, (colorOff x).strLines L = L.flatten := fun L => by
    simp [XTraceback.strLines, hoffc]
  have hsl2 : ∀ L : List Str, (colorOnNoPygments x).strLines L = L.flatten := fun L => by
    cases hc : (colorOnNoPygments x).resolvedColor <;>
      simp [XTraceback.strLines, hc, hun]
  refine ⟨?_, ?_, ?_, ?_, ?_, ?_⟩
  · unfold XTraceback.format_tb
    rw [hfl1, hfl2, htb]
  · unfold XTraceback.format_exception_only
    rw [hfl1, hfl2, heo]
  · unfold XTraceback.format_exception
    rw [hfl1, hfl2, hexc]
  · unfold XTraceback.toStr
    rw [hsl1, hsl2, hexc]
  · unfold XTraceback.print_tb XTraceback.printLines
    cases hstream : x.options.stream with
    | none => rfl
    | some st =>
      have h1 : (colorOff x).options.stream = some st := hstream
      have h2 : (colorOnNoPygments x).options.stream = some st := hstream
      rw [h1, h2]
      simp only [hsl1, hsl2, htb]
  · unfold XTraceback.print_exception XTraceback.printLines
    cases hstream : x.options.stream with
    | none => rfl
    | some st =>
      have h1 : (colorOff x).options.stream = some st := hstream
      have h2 : (colorOnNoPygments x).options.stream = some st := hstream
      rw [h1, h2]
      simp only [hsl1, hsl2, hexc]

/-- C10: with no stream configured and the color option unset, the
resolved color is false and every format operation returns the plain
assembled lines, with no highlighting applied. -/
theorem c10_no_stream_auto_color (x : XTraceback)
    (hs : x.options.stream = none) (hc : x.options.color = none) :
    x.resolvedColor = false
    ∧ x.format_tb = .ok x.formatTbLines
    ∧ x.format_exception_only
        = .ok (formatExceptionOnlyLines x.fs x.options x.etype x.value)
    ∧ x.format_exception = .ok x.formatExceptionLines
    ∧ x.toStr = x.formatExceptionLines.flatten := by
  have hcol : x.resolvedColor = false := by
    simp [XTraceback.resolvedColor, hc, XTraceback.ttyStream, hs]
  refine ⟨hcol, ?_, ?_, ?_, ?_⟩ <;>
    simp [XTraceback.format_tb, XTraceback.format_exception_only, XTraceback.format_exception,
      XTraceback.toStr, XTraceback.formatLines, XTraceback.strLines, hcol]

/-- C10 witness: the concrete no-stream instance resolves color to
false and formats to the raw lines. -/
theorem c10_witness :
    xNoStream.resolvedColor = false
    ∧ xNoStream.format_tb = .ok xNoStream.formatTbLines
    ∧ xNoStream.format_exception_only
        = .ok (formatExceptionOnlyLines xNoStream.fs xNoStream.options
            xNoStream.etype xNoStream.value)
    ∧ xNoStream.format_exception = .ok xNoStream.formatExceptionLines
    ∧ xNoStream.toStr = xNoStream.formatExceptionLines.flatten :=
  c10_no_stream_auto_color xNoStream rfl rfl

/-- C4: the header line.  When the included frame sequence is empty the
assembled output never contains `Traceback (most recent call last):\n`;
with at least one included frame it is the first line and occurs exactly
once.  The hypotheses record that neither a frame's rendered line nor an
exception-only line happens to be that very header string. -/
theorem c4_traceback_header (x : XTraceback)
    (hexc : tracebackHeader ∉ formatExceptionOnlyLines x.fs x.options x.etype x.value)
    (hfr : ∀ f ∈ x.tb_frames, f.content ++ ['\n'] ≠ tracebackHeader) :
    (x.tb_frames = [] → tracebackHeader ∉ x.formatExceptionLines)
    ∧ (x.tb_frames ≠ [] →
        x.formatExceptionLines.head? = some tracebackHeader
        ∧ x.formatExceptionLines.count tracebackHeader = 1) := by
  unfold XTraceback.formatExceptionLines XTraceback.formatTbLines
  constructor
  · intro h
    simp [h, hexc]
  · intro h
    have hne : (x.tb_frames.map (fun f => f.content ++ ['\n'])) ≠ [] := by
      simpa using h
    rw [if_pos hne, List.cons_append]
    refine ⟨rfl, ?_⟩
    rw [List.count_cons_self, List.count_append]
    have h1 : (x.tb_frames.map (fun f => f.content ++ ['\n'])).count tracebackHeader = 0 := by
      refine List.count_eq_zero.mpr ?_
      intro hmem
      rcases List.mem_map.mp hmem with ⟨f, hf, he⟩
      exact hfr f hf he
    have h2 : (formatExceptionOnlyLines x.fs x.options x.etype x.value).count
        tracebackHeader = 0 := List.count_eq_zero.mpr hexc
    rw [h1, h2]

/-- C4 witness: with no frames the header is absent; with the one-frame
instance the header is the first line and appears exactly once. -/
theorem c4_traceback_header_witness :
    (tracebackHeader ∉ ({xNoStream with tb_frames := []} : XTraceback).formatExceptionLines)
    ∧ xNoStream.formatExceptionLines.head? = some tracebackHeader
    ∧ xNoStream.formatExceptionLines.count tracebackHeader = 1 := by
  refine ⟨(c4_traceback_header _ (by decide) (by decide)).1 rfl, ?_, ?_⟩
  · exact ((c4_traceback_header xNoStream (by decide) (by decide)).2 (by decide)).1
  · exact ((c4_traceback_header xNoStream (by decide) (by decide)).2 (by decide)).2

theorem mem_of_mem_lstripSet {cs s : Str} {a : Char} (h : a ∈ lstripSet cs s) : a ∈ s :=
  (List.dropWhile_sublist _).subset h

theorem mem_of_mem_rstripSet {cs s : Str} {a : Char} (h : a ∈ rstripSet cs s) : a ∈ s := by
  unfold rstripSet at h
  rw [List.mem_reverse] at h
  have h2 := (List.dropWhile_sublist _).subset h
  rwa [List.mem_reverse] at h2

theorem mem_of_mem_pyStrip {s : Str} {a : Char} (h : a ∈ pyStrip s) : a ∈ s := by
  unfold pyStrip at h
  rw [List.mem_reverse] at h
  have h2 := (List.dropWhile_sublist _).subset h
  rw [List.mem_reverse] at h2
  exact (List.dropWhile_sublist _).subset h2

theorem splitOn_eq_single_of_no_newline {s : Str} (h : '\n' ∉ s) :
    s.splitOn '\n' = [s] := by
  unfold List.splitOn
  refine List.splitOnP_eq_single _ _ ?_
  intro y hy hb
  exact h (by rwa [eq_of_beq hb] at hy)

theorem splitlinesNl_of_no_newline {s : Str} (h : '\n' ∉ s) :
    splitlinesNl s = if s = [] then [] else [s] := by
  unfold splitlinesNl
  by_cases hs : s = []
  · simp [hs]
  · have hlast : ¬ (s.getLast? = some '\n') := fun hl =>
      h (List.mem_of_mem_getLast? (by simp [hl]))
    rw [if_neg hs, if_neg hs, if_neg hlast, splitOn_eq_single_of_no_newline h]

theorem reformatValue_of_no_newline (indent : Nat) (st en pvalue : Str)
    (h : '\n' ∉ pvalue) :
    reformatValue indent st en pvalue
      = st ++ ('\n' :: spaces (indent + 4))
          ++ (pyStrip (rstripSet en (lstripSet st pvalue)) ++ [','])
          ++ ('\n' :: spaces (indent + 4)) ++ en := by
  have hint : '\n' ∉ rstripSet en (lstripSet st pvalue) :=
    fun hm => h (mem_of_mem_lstripSet (mem_of_mem_rstripSet hm))
  unfold reformatValue
  rw [splitlinesNl_of_no_newline hint]
  by_cases hi : rstripSet en (lstripSet st pvalue) = []
  · rw [if_pos hi, hi]
    simp [List.intercalate, pyStrip]
  · rw [if_neg hi]
    simp [List.intercalate, List.intersperse]

theorem REFORMAT_no_newline {v : PyValue} {st en : Str}
    (h : REFORMAT v = some (st, en)) : '\n' ∉ st ∧ '\n' ∉ en := by
  cases v <;> simp [REFORMAT] at h <;> obtain ⟨h1, h2⟩ := h <;> subst h1 <;> subst h2 <;>
    exact ⟨by decide, by decide⟩

theorem truncateValue_of_REFORMAT {v : PyValue} {st en : Str} (pw bs : Nat)
    (h : REFORMAT v = some (st, en)) : truncateValue pw bs v = v := by
  cases v <;> simp_all [REFORMAT, truncateValue]

theorem not_mem_append_chr {a : Char} {l1 l2 : Str} (h1 : a ∉ l1) (h2 : a ∉ l2) :
    a ∉ l1 ++ l2 :=
  fun hm => (List.mem_append.mp hm).elim h1 h2

/-- C6 (amended): when the re-wrap branch fires (registered shape,
over-width single-line rendering), the formatted block splits on
newlines into exactly three lines: the key line ending in the opening
delimiter, the stripped interior at `indent + 4` spaces with a trailing
comma, and the closing delimiter at `indent + 4` spaces.  In particular
every line AFTER THE FIRST begins at `indent + 4` spaces and the final
line is the closing delimiter preceded by that indentation - not the
delimiter alone, and the first line is not so indented (see the
counterexample). -/
theorem c6_reformat_lines (printWidth : Nat) (key : Str) (value : PyValue)
    (indent : Nat) (pfx separator st en : Str)
    (hre : REFORMAT value = some (st, en))
    (hwide : printWidth < indent + pfx.length + key.length + separator.length
        + (pvalueOf value).length)
    (hnl : '\n' ∉ pvalueOf value)
    (hk : '\n' ∉ key) (hp : '\n' ∉ pfx) (hsp : '\n' ∉ separator) :
    (formatVariable printWidth key value indent pfx separator).splitOn '\n'
      = [spaces indent ++ pfx ++ key ++ separator ++ st,
         spaces (indent + 4)
           ++ pyStrip (rstripSet en (lstripSet st (pvalueOf value))) ++ [','],
         spaces (indent + 4) ++ en]
    ∧ (∀ l ∈ ((formatVariable printWidth key value indent pfx separator).splitOn '\n').tail,
        spaces (indent + 4) <+: l)
    ∧ ((formatVariable printWidth key value indent pfx separator).splitOn '\n').getLastD []
        = spaces (indent + 4) ++ en := by
  obtain ⟨hst, hen⟩ := REFORMAT_no_newline hre
  have htv := truncateValue_of_REFORMAT
    (v := value) printWidth (indent + pfx.length + key.length + separator.length) hre
  have hfv : formatVariable printWidth key value indent pfx separator
      = spaces indent ++ pfx ++ key ++ separator
        ++ reformatValue indent st en (pvalueOf value) := by
    simp only [formatVariable, htv]
    rw [if_pos hwide, hre]
  have hMID : '\n' ∉ pyStrip (rstripSet en (lstripSet st (pvalueOf value))) :=
    fun hm => hnl (mem_of_mem_lstripSet (mem_of_mem_rstripSet (mem_of_mem_pyStrip hm)))
  have hspi : ('\n' : Char) ∉ spaces indent := by simp [spaces, List.mem_replicate]
  have hsp4 : ('\n' : Char) ∉ spaces (indent + 4) := by simp [spaces, List.mem_replicate]
  have hfull : formatVariable printWidth key value indent pfx separator
      = List.intercalate ['\n']
          [spaces indent ++ pfx ++ key ++ separator ++ st,
           spaces (indent + 4)
             ++ pyStrip (rstripSet en (lstripSet st (pvalueOf value))) ++ [','],
           spaces (indent + 4) ++ en] := by
    rw [hfv, reformatValue_of_no_newline _ _ _ _ hnl]
    simp [List.intercalate, List.intersperse, List.append_assoc]
  have hsplit : (formatVariable printWidth key value indent pfx separator).splitOn '\n'
      = [spaces indent ++ pfx ++ key ++ separator ++ st,
         spaces (indent + 4)
           ++ pyStrip (rstripSet en (lstripSet st (pvalueOf value))) ++ [','],
         spaces (indent + 4) ++ en] := by
    rw [hfull]
    refine List.splitOn_intercalate _ _ ?_ (by simp)
    intro l hl
    simp only [List.mem_cons, List.not_mem_nil, or_false] at hl
    rcases hl with rfl | rfl | rfl
    · exact not_mem_append_chr (not_mem_append_chr (not_mem_append_chr
        (not_mem_append_chr hspi hp) hk) hsp) hst
    · exact not_mem_append_chr (not_mem_append_chr hsp4 hMID) (by decide)
    · exact not_mem_append_chr hsp4 hen
  refine ⟨hsplit, ?_, ?_⟩
  · rw [hsplit]
    intro l hl
    simp only [List.tail_cons, List.mem_cons, List.not_mem_nil, or_false] at hl
    rcases hl with rfl | rfl
    · exact ⟨pyStrip (rstripSet en (lstripSet st (pvalueOf value))) ++ [','],
        by simp [List.append_assoc]⟩
    · exact ⟨en, rfl⟩
  · rw [hsplit]
    rfl

set_option maxRecDepth 8000 in
/-- C6 witness: width 30, `x = [100000, 200000, 300000]` re-wraps into
the three lines with the interior and closing delimiter at 8 spaces. -/
theorem c6_reformat_lines_witness :
    (formatVariable 30 "x".data
        (.pyList [.pyInt 100000, .pyInt 200000, .pyInt 300000])).splitOn '\n'
      = ["    x = [".data,
         "        100000, 200000, 300000,".data,
         "        ]".data] := by
  have h := c6_reformat_lines 30 "x".data
    (.pyList [.pyInt 100000, .pyInt 200000, .pyInt 300000]) 4 [] " = ".data
    "[".data "]".data (by decide) (by decide) (by decide) (by decide) (by decide)
    (by decide)
  exact h.1.trans (by decide)

set_option maxRecDepth 8000 in
/-- C6 counterexample: at the same input the claim as stated fails: the
first line `    x = [` does not begin at `indent + 4 = 8` spaces, and
the final line is `        ]`, not the closing delimiter alone. -/
theorem c6_counterexample :
    ¬ ((∀ l ∈ (formatVariable 30 "x".data
            (.pyList [.pyInt 100000, .pyInt 200000, .pyInt 300000])).splitOn '\n',
          spaces (4 + 4) <+: l)
        ∧ ((formatVariable 30 "x".data
            (.pyList [.pyInt 100000, .pyInt 200000, .pyInt 300000])).splitOn '\n').getLastD []
          = "]".data) := by
  decide
